import Mathlib

/-!
Verification development for the notes storage layer of
tg-bot-mcp-docker-sql-mongo (directory notes-mcp-sqlite).

The repository exposes one storage contract implemented by several backend
adapters.  We shallowly embed the adapter code: a backend's store becomes an
explicit value (a list of notes, insertion ordered, mirroring a Python dict
or a table), each method becomes a Lean function threading that value, and
timestamps become integers (an order-preserving abstraction of the ISO-8601
strings and datetimes the code compares).  `datetime.now()` and the generated
UUID become explicit parameters.  Behaviour that raises is modelled with
`Option` (`none` = exception).
-/

/-- Python str.lower, character-wise (ASCII case folding suffices for the
properties below). -/
def strLower (s : String) : String := ⟨s.data.map Char.toLower⟩

/-- Containment of one character list in another as a contiguous run,
i.e. the semantics of the Python expression needle in hay on strings. -/
def infixOf (needle : List Char) : List Char → Bool
  | [] => needle.isEmpty
  | c :: t => needle.isPrefixOf (c :: t) || infixOf needle t

/-- Python needle in hay on strings. -/
def strContains (hay needle : String) : Bool := infixOf needle.data hay.data

/-- One note record.  due_at = none models Python None (no reminder);
timestamps are integers ordered like the ISO strings in the code. -/
structure Note where
  id : String
  title : String
  content : String
  due_at : Option Int
  created_at : Int
deriving Repr, DecidableEq

/-- The match predicate of NotesDatabaseProgress.search_notes:
query.lower() in title.lower() or query.lower() in content.lower(). -/
def matchesQuery (q : String) (n : Note) : Bool :=
  strContains (strLower n.title) (strLower q) ||
    strContains (strLower n.content) (strLower q)

/-- Descending created_at, the key of sorted(..., reverse=True); Python
sorted is a stable sort by key, extensionally the stable insertion sort. -/
def createdDesc (a b : Note) : Prop := b.created_at ≤ a.created_at

instance : DecidableRel createdDesc := fun _ _ => Int.decLe _ _

instance : IsTotal Note createdDesc := ⟨fun a b => Int.le_total b.created_at a.created_at⟩

instance : IsTrans Note createdDesc := ⟨fun _ _ _ h1 h2 => le_trans h2 h1⟩

/-- Ascending due_at, the key of sorted(result, key=due_at); every note the
reminder query sorts has due_at present, so getD 0 is never consulted. -/
def dueAsc (a b : Note) : Prop := a.due_at.getD 0 ≤ b.due_at.getD 0

instance : DecidableRel dueAsc := fun _ _ => Int.decLe _ _

/-- True when some note in the store carries this id (Python:
note_id in self.notes, on the dict keyed by id). -/
def hasId (s : List Note) (i : String) : Bool := s.any (fun n => n.id == i)

/-! ## In-memory adapter: NotesDatabaseProgress (db/database_progress.py)

The dict self.notes is modelled as a `List Note` in insertion order (Python
dicts preserve it, and values() iterates in it); the dict holds at most one
entry per id, so deleting the entry is filtering the id out. -/

/-- db/database_progress.py, add_note: stores the note under the fresh
uuid4 id (the id and now are explicit parameters) and returns the id.
The method performs no validation of title or content. -/
def progressAddNote (s : List Note) (noteId : String) (title content : String)
    (due : Option Int) (now : Int) : List Note × String :=
  (s ++ [{ id := noteId, title := title, content := content,
           due_at := due, created_at := now }], noteId)

/-- db/database_progress.py, delete_note: if note_id in self.notes,
delete the entry and return True, else return False. -/
def progressDeleteNote (s : List Note) (i : String) : List Note × Bool :=
  if hasId s i then (s.filter (fun n => !(n.id == i)), true) else (s, false)

/-- db/database_progress.py, get_note_by_id: self.notes.get(note_id). -/
def progressGetNoteById (s : List Note) (i : String) : Option Note :=
  s.find? (fun n => n.id == i)

/-- db/database_progress.py, search_notes: filter by the case-insensitive
substring predicate, stable-sort descending by created_at, truncate. -/
def progressSearchNotes (s : List Note) (q : String) (limit : Nat) : List Note :=
  (List.insertionSort createdDesc (s.filter (matchesQuery q))).take limit

/-- db/database_progress.py, get_recent_notes: stable-sort descending by
created_at, truncate. -/
def progressGetRecentNotes (s : List Note) (limit : Nat) : List Note :=
  (List.insertionSort createdDesc s).take limit

/-- db/database_progress.py, get_upcoming_reminders: keep the notes whose
due_at is present and falls in [now, now + hours] (future_time is
now + timedelta(hours=hours); one hour = 3600 model units), sort ascending
by due_at.  Notes whose due_at is absent are skipped; the except-ValueError
branch for unparseable strings is outside the Option Int abstraction. -/
def progressGetUpcomingReminders (s : List Note) (now : Int) (hours : Int) :
    List Note :=
  (s.filter (fun n =>
      match n.due_at with
      | some d => decide (now ≤ d) && decide (d ≤ now + hours * 3600)
      | none => false)).insertionSort dueAsc

/-- A value of the stats dict: the counts are integers, the
database_type tag of some adapters is a string. -/
inductive StatVal where
  | num (n : Int)
  | str (s : String)
deriving Repr, DecidableEq

/-- db/database_progress.py, get_stats: total, count of truthy due_at,
total minus that count, and the count of notes created within the trailing
7 days (week_ago = now - timedelta(days=7); 604800 model units). -/
def progressGetStats (s : List Note) (now : Int) : List (String × StatVal) :=
  [("total_notes", .num s.length),
   ("notes_with_reminders", .num (s.filter (fun n => n.due_at.isSome)).length),
   ("notes_without_reminders",
     .num (s.length - (s.filter (fun n => n.due_at.isSome)).length)),
   ("recent_notes",
     .num (s.filter (fun n => decide (now - 604800 ≤ n.created_at))).length)]

/-! ## Relational adapter: NotesDatabase (db/database.py, SQLite)

The notes table is a `List SqlNote` in rowid order; ids are the
auto-incrementing integer primary key. -/

/-- One row of the SQLite notes table. -/
structure SqlNote where
  id : Nat
  title : String
  content : String
  due_at : Option Int
  created_at : Int
deriving Repr, DecidableEq

/-- SQLite LIKE with two-sided wildcards: for a query without the LIKE
metacharacters percent and underscore, it is case-insensitive (ASCII)
substring containment. -/
def sqlLikeContains (hay q : String) : Bool :=
  strContains (strLower hay) (strLower q)

/-- Descending created_at over SQL rows. -/
def sqlCreatedDesc (a b : SqlNote) : Prop := b.created_at ≤ a.created_at

instance : DecidableRel sqlCreatedDesc := fun _ _ => Int.decLe _ _

/-- db/database.py, add_note: INSERT INTO notes (title, content, due_at);
id is assigned by AUTOINCREMENT (the fresh nextId parameter), created_at by
DEFAULT CURRENT_TIMESTAMP (the now parameter); returns lastrowid.  The
NOT NULL column constraints accept the empty string, and the method performs
no validation of title or content. -/
def sqliteAddNote (table : List SqlNote) (nextId : Nat) (title content : String)
    (due : Option Int) (now : Int) : List SqlNote × Nat :=
  (table ++ [{ id := nextId, title := title, content := content,
               due_at := due, created_at := now }], nextId)

/-- db/database.py, search_notes: WHERE title LIKE pat OR content LIKE pat
(pat = query between two wildcards) ORDER BY created_at DESC LIMIT limit.
SQL leaves the relative order of equal created_at unspecified; the model
fixes the stable order. -/
def sqliteSearchNotes (table : List SqlNote) (q : String) (limit : Nat) :
    List SqlNote :=
  (List.insertionSort sqlCreatedDesc
    (table.filter (fun n => sqlLikeContains n.title q || sqlLikeContains n.content q))).take
    limit

/-- db/database.py, get_stats: four scalar COUNT queries — all rows, rows
with due_at NOT NULL, rows with due_at NULL, and rows with
created_at >= now - 7 days. -/
def sqliteGetStats (table : List SqlNote) (now : Int) : List (String × StatVal) :=
  [("total_notes", .num table.length),
   ("notes_with_reminders",
     .num (table.filter (fun n => n.due_at.isSome)).length),
   ("notes_without_reminders",
     .num (table.filter (fun n => n.due_at.isNone)).length),
   ("recent_notes",
     .num (table.filter (fun n => decide (now - 604800 ≤ n.created_at))).length)]

/-! ## Graph adapter: NotesDatabaseNeo4j (db/database_neo4j.py)

Note nodes are a `List Note`; Cypher compares the ISO timestamp strings,
which the integer abstraction preserves. -/

/-- db/database_neo4j.py, search_notes: WHERE title matches the regular
expression .*query.* OR content does, ORDER BY created_at DESC.  For a query
without regex metacharacters the full regex match is exactly case-SENSITIVE
substring containment.  The method takes no limit parameter and returns
every match. -/
def neo4jSearchNotes (s : List Note) (q : String) : List Note :=
  List.insertionSort createdDesc
    (s.filter (fun n => strContains n.title q || strContains n.content q))

/-- db/database_neo4j.py, update_note: collect the SET clauses for the
supplied (non-None) fields; if none were supplied return False before
querying; otherwise MATCH the node by id, SET exactly those properties, and
return whether a node matched. -/
def neo4jUpdateNote (s : List Note) (i : String) (t c : Option String)
    (d : Option Int) : List Note × Bool :=
  if t.isNone && c.isNone && d.isNone then (s, false)
  else if hasId s i then
    (s.map (fun n =>
        if n.id == i then
          { n with title := t.getD n.title, content := c.getD n.content,
                   due_at := match d with | some x => some x | none => n.due_at }
        else n), true)
  else (s, false)

/-- db/database_neo4j.py, get_upcoming_reminders: the code computes
future_time = now.replace(hour=now.hour + hours), which raises ValueError
(modelled as none) whenever now.hour + hours exceeds 23; when it does not,
replace shifts now by exactly hours hours and the query keeps the notes
with due_at present in [now, now + hours], ascending by due_at.  nowHour is
the hour field of now (0..23). -/
def neo4jGetUpcomingReminders (s : List Note) (now : Int) (nowHour : Nat)
    (hours : Nat) : Option (List Note) :=
  if 23 < nowHour + hours then none
  else some ((s.filter (fun n =>
      match n.due_at with
      | some d => decide (now ≤ d) && decide (d ≤ now + (hours : Int) * 3600)
      | none => false)).insertionSort dueAsc)

/-- db/database_neo4j.py, get_stats: three count queries (all nodes, nodes
with due_at NOT NULL, nodes with due_at NULL) plus the constant
database_type tag.  No recent-7-days count is computed. -/
def neo4jGetStats (s : List Note) : List (String × StatVal) :=
  [("total_notes", .num s.length),
   ("notes_with_reminders", .num (s.filter (fun n => n.due_at.isSome)).length),
   ("notes_without_reminders",
     .num (s.filter (fun n => n.due_at.isNone)).length),
   ("database_type", .str "neo4j")]

/-! ## Wide-column adapter: NotesDatabaseCassandra (db/database_cassandra.py)

The notes table is a `List Note`; ids are UUID strings (uuid.UUID would
reject a malformed id, so the model is used at well-formed UUID strings). -/

/-- db/database_cassandra.py, delete_note: executes the CQL DELETE (which
removes the row if present) and returns True unconditionally — the comment
in the code says Cassandra doesn't return row count. -/
def cassandraDeleteNote (s : List Note) (i : String) : List Note × Bool :=
  (s.filter (fun n => !(n.id == i)), true)

/-- A raw row of the wide-column notes table.  Every non-key column is
nullable: a CQL UPDATE on an absent primary key is an upsert that creates
the row with only the SET columns populated, so title, content, due_at and
created_at can each be null.  Rows written through add_note have every
column populated; the update model must admit the sparser upserted rows. -/
structure CassRow where
  id : String
  title : Option String
  content : Option String
  due_at : Option Int
  created_at : Option Int
deriving Repr, DecidableEq

/-- True when some row of the wide-column table carries this id. -/
def cassHasId (s : List CassRow) (i : String) : Bool := s.any (fun r => r.id == i)

/-- db/database_cassandra.py, update_note: collect SET clauses for the
supplied (non-None) fields; if none, return False before querying; otherwise
execute UPDATE ... SET ... WHERE id = ? and return True unconditionally (the
code again notes Cassandra doesn't return row count).  CQL UPDATE is an
upsert: on a present row exactly the supplied columns are overwritten; on an
absent id the row is created with the supplied columns set and every other
non-key column null.  The table has no meaningful row order; the model
appends the created row. -/
def cassandraUpdateNote (s : List CassRow) (i : String) (t c : Option String)
    (d : Option Int) : List CassRow × Bool :=
  if t.isNone && c.isNone && d.isNone then (s, false)
  else if cassHasId s i then
    (s.map (fun r =>
        if r.id == i then
          { r with
            title := (match t with | some x => some x | none => r.title),
            content := (match c with | some x => some x | none => r.content),
            due_at := (match d with | some x => some x | none => r.due_at) }
        else r), true)
  else
    (s ++ [{ id := i, title := t, content := c, due_at := d,
             created_at := none }], true)

/-- db/database_cassandra.py, get_upcoming_reminders: the same
future_time = now.replace(hour=now.hour + hours) computation as the graph
adapter, raising ValueError (none) whenever now.hour + hours exceeds 23;
otherwise the rows with due_at in [now, now + hours].  The CQL result
carries no ORDER BY; the model returns the rows in table order. -/
def cassandraGetUpcomingReminders (s : List Note) (now : Int) (nowHour : Nat)
    (hours : Nat) : Option (List Note) :=
  if 23 < nowHour + hours then none
  else some (s.filter (fun n =>
      match n.due_at with
      | some d => decide (now ≤ d) && decide (d ≤ now + (hours : Int) * 3600)
      | none => false))

/-! ## Remote-proxy adapter: NotesDatabaseProgressServer
(db/database_progress_server.py) -/

/-- Outcome of the GET /health request issued by the constructor: either a
response with some HTTP status code, or a transport failure
(requests.exceptions.RequestException). -/
inductive HealthCheck where
  | response (code : Nat)
  | requestError
deriving Repr, DecidableEq

/-- db/database_progress_server.py, the constructor's health-check handling:
a 200 response logs success, any other status code logs a warning, and in
both cases construction completes; only a RequestException is re-raised,
aborting construction (false = the constructor raises). -/
def progressServerInitSucceeds : HealthCheck → Bool
  | .response _ => true
  | .requestError => false

/-- db/database_progress_server.py, update_note: build the JSON body from
the supplied (non-None) fields; if it is empty return False without issuing
a request; otherwise PUT and return whether the status is 200 (remoteOk:
the remote outcome, an input of the model). -/
def progressServerUpdateNote (t c : Option String) (d : Option Int)
    (remoteOk : Bool) : Bool :=
  if t.isNone && c.isNone && d.isNone then false else remoteOk

/-! ## Backend selector (db/database_selector.py) -/

/-- The adapter classes the selector can bind to NotesDatabaseClass. -/
inductive BackendClass where
  | mongo
  | neo4j
  | progress
  | progressServer
  | sqlite
deriving Repr, DecidableEq

/-- The backend names the selector's if/elif chain tests explicitly. -/
def recognizedBackends : List String :=
  ["mongo", "neo4j", "progress", "progress_server"]

/-- db/database_selector.py: the if/elif chain over USE_DB_BACKEND; every
name other than the four recognized ones — including any unknown name —
takes the else branch and binds the SQLite NotesDatabase class.  The
surrounding try only re-raises ImportError of the chosen module; no branch
raises on an unknown name. -/
def selectBackendClass (name : String) : BackendClass :=
  if name == "mongo" then .mongo
  else if name == "neo4j" then .neo4j
  else if name == "progress" then .progress
  else if name == "progress_server" then .progressServer
  else .sqlite

/-! ## Supporting lemmas -/

/-- The empty character list occurs in every list. -/
theorem infixOf_nil (hay : List Char) : infixOf [] hay = true := by
  cases hay with
  | nil => rfl
  | cons c t => rfl

/-- The empty query matches every note. -/
theorem matchesQuery_empty (n : Note) : matchesQuery "" n = true := by
  have h : (strLower "").data = [] := rfl
  simp [matchesQuery, strContains, h, infixOf_nil]

/-- After filtering an id out, no note in the store carries it. -/
theorem hasId_filter_ne (s : List Note) (i : String) :
    hasId (s.filter (fun n => !(n.id == i))) i = false := by
  simp only [hasId, List.any_eq_false, List.mem_filter]
  intro x hx
  have h2 := hx.2
  simp only [Bool.not_eq_true', beq_eq_false_iff_ne] at h2
  simp [h2]

/-- A store with no note of this id yields none on lookup by id. -/
theorem getNoteById_none_of_hasId_false {s : List Note} {i : String}
    (h : hasId s i = false) : progressGetNoteById s i = none := by
  unfold progressGetNoteById
  rw [List.find?_eq_none]
  intro x hx
  simp only [hasId, List.any_eq_false] at h
  exact h x hx

/-- Concrete sample notes used by witnesses and counterexamples. -/
def noteA : Note :=
  { id := "a1", title := "Foo", content := "Bar", due_at := none, created_at := 1 }

def noteB : Note :=
  { id := "b2", title := "Baz", content := "Qux", due_at := some 5000,
    created_at := 2 }

def uuidZero : String := "00000000-0000-0000-0000-000000000000"

/-! ## Claim theorems -/

/-- C9: for the in-memory adapter, search with the empty query coincides with
get_recent_notes at every store and limit — both stable-sort by created_at
descending and truncate, and the empty query matches every note. -/
theorem progress_search_empty_query_eq_recent (s : List Note) (limit : Nat) :
    progressSearchNotes s "" limit = progressGetRecentNotes s limit := by
  unfold progressSearchNotes progressGetRecentNotes
  rw [List.filter_eq_self.mpr (fun n _ => matchesQuery_empty n)]

/-- C1 counterexample: the wide-column adapter's delete returns true on an
empty store for a well-formed UUID id, where the claim requires false; a
second delete with the same id again returns true, so delete twice yields
true, true rather than true, false. -/
theorem cassandra_delete_absent_returns_true :
    cassandraDeleteNote [] uuidZero = ([], true) ∧
    (cassandraDeleteNote (cassandraDeleteNote [] uuidZero).1 uuidZero).2 = true := by
  exact ⟨rfl, rfl⟩

/-- C1 (amended): for the in-memory adapter, delete on a present id returns
true, delete on an absent id returns false and leaves the store unchanged,
the deleted id is no longer retrievable, and a second delete with the same
id always returns false. -/
theorem progress_delete_contract (s : List Note) (i : String) :
    (hasId s i = true → (progressDeleteNote s i).2 = true) ∧
    (hasId s i = false → progressDeleteNote s i = (s, false)) ∧
    progressGetNoteById (progressDeleteNote s i).1 i = none ∧
    (progressDeleteNote (progressDeleteNote s i).1 i).2 = false := by
  by_cases h : hasId s i = true
  · refine ⟨fun _ => ?_, fun hf => ?_, ?_, ?_⟩
    · simp [progressDeleteNote, h]
    · rw [h] at hf; cases hf
    · have hgone := hasId_filter_ne s i
      simp only [progressDeleteNote, h, if_true]
      exact getNoteById_none_of_hasId_false hgone
    · have hgone := hasId_filter_ne s i
      simp [progressDeleteNote, h, hgone]
  · have hf : hasId s i = false := by
      cases hh : hasId s i
      · rfl
      · exact absurd hh h
    refine ⟨fun ht => absurd ht h, fun _ => ?_, ?_, ?_⟩
    · simp [progressDeleteNote, hf]
    · simp only [progressDeleteNote, hf, Bool.false_eq_true, if_false]
      exact getNoteById_none_of_hasId_false hf
    · simp [progressDeleteNote, hf]

/-- C1 witness: on a one-note store, delete of the present id returns true. -/
theorem progress_delete_contract_witness :
    hasId [noteA] "a1" = true ∧ (progressDeleteNote [noteA] "a1").2 = true :=
  ⟨by decide, (progress_delete_contract [noteA] "a1").1 (by decide)⟩

/-- C2 counterexample: the in-memory adapter's add with empty title and empty
content succeeds — the note is stored and the fresh id returned — where the
claim requires a ValidationError; no adapter in the repository validates. -/
theorem progress_add_empty_succeeds :
    progressAddNote [] "id0" "" "" none 0 =
      ([{ id := "id0", title := "", content := "", due_at := none,
          created_at := 0 }], "id0") := rfl

/-- C2 (amended): add never validates and always succeeds: for every title
and content (empty included), the in-memory adapter stores the note under
the fresh id with created_at = now and returns the id, and the relational
adapter inserts the row under the fresh rowid with created_at = now and
returns it. -/
theorem add_no_validation (s : List Note) (table : List SqlNote) (i : String)
    (k : Nat) (t c : String) (d : Option Int) (now : Int)
    (h1 : hasId s i = false) (h2 : (table.find? (fun r => r.id == k)) = none) :
    (progressAddNote s i t c d now).2 = i ∧
    progressGetNoteById (progressAddNote s i t c d now).1 i =
      some { id := i, title := t, content := c, due_at := d, created_at := now } ∧
    (sqliteAddNote table k t c d now).2 = k ∧
    (sqliteAddNote table k t c d now).1.find? (fun r => r.id == k) =
      some { id := k, title := t, content := c, due_at := d, created_at := now } := by
  refine ⟨rfl, ?_, rfl, ?_⟩
  · have hn : s.find? (fun n => n.id == i) = none := by
      rw [List.find?_eq_none]
      intro x hx
      simp only [hasId, List.any_eq_false] at h1
      exact h1 x hx
    simp [progressGetNoteById, progressAddNote, hn]
  · simp [sqliteAddNote, h2]

/-- C2 witness: adding with empty title and content to empty stores. -/
theorem add_no_validation_witness :
    hasId [] "id0" = false ∧
    (progressAddNote [] "id0" "" "" none 0).2 = "id0" :=
  ⟨by decide, (add_no_validation [] [] "id0" 1 "" "" none 0 (by decide) (by decide)).1⟩

/-- C3 counterexample: the graph adapter's search takes no limit parameter
and returns every match — two matches where a cap of 1 is requested — and
its regex match is case-sensitive: a note the in-memory predicate matches is
missed when the case differs. -/
theorem neo4j_search_unbounded_and_case_sensitive :
    (neo4jSearchNotes [noteA, noteB] "a").length = 2 ∧
    ¬ (neo4jSearchNotes [noteA, noteB] "a").length ≤ 1 ∧
    neo4jSearchNotes [noteA] "foo" = [] ∧
    matchesQuery "foo" noteA = true := by decide

/-- C3 (amended): the in-memory adapter's search returns only stored notes
matching the case-insensitive substring predicate, in descending created_at
order, capped at limit, and is exhaustive whenever the matches fit the
limit; the graph adapter exposes no cap. -/
theorem progress_search_contract (s : List Note) (q : String) (limit : Nat) :
    (∀ n ∈ progressSearchNotes s q limit, n ∈ s ∧ matchesQuery q n = true) ∧
    (progressSearchNotes s q limit).length ≤ limit ∧
    (progressSearchNotes s q limit).Pairwise
      (fun a b => b.created_at ≤ a.created_at) ∧
    ((s.filter (matchesQuery q)).length ≤ limit →
      ∀ n, n ∈ progressSearchNotes s q limit ↔ n ∈ s ∧ matchesQuery q n = true) := by
  unfold progressSearchNotes
  refine ⟨?_, ?_, ?_, ?_⟩
  · intro n hn
    have h1 : n ∈ List.insertionSort createdDesc (s.filter (matchesQuery q)) :=
      List.mem_of_mem_take hn
    rw [List.mem_insertionSort] at h1
    exact List.mem_filter.mp h1
  · rw [List.length_take]
    exact min_le_left _ _
  · have h2 : (List.insertionSort createdDesc (s.filter (matchesQuery q))).Pairwise
        createdDesc := List.sorted_insertionSort createdDesc _
    exact List.Pairwise.sublist (List.take_sublist _ _) h2
  · intro h n
    rw [List.take_of_length_le (by rw [List.length_insertionSort]; exact h)]
    rw [List.mem_insertionSort, List.mem_filter]

/-- C3 witness: on a two-note store both notes match the query, they fit a
limit of 10, and membership in the result coincides with matching. -/
theorem progress_search_contract_witness :
    ([noteA, noteB].filter (matchesQuery "a")).length ≤ 10 ∧
    (noteA ∈ progressSearchNotes [noteA, noteB] "a" 10 ↔
      noteA ∈ [noteA, noteB] ∧ matchesQuery "a" noteA = true) :=
  ⟨by decide, (progress_search_contract [noteA, noteB] "a" 10).2.2.2 (by decide) noteA⟩

/-- C4: the graph and wide-column adapters' reminder queries raise
ValueError (modelled none) at the default window of 24 hours for every
store and clock time, because they compute the window end as
now.replace(hour=now.hour + hours) and the hour field only admits 0..23;
the claim and the spec intend now + timedelta(hours=hours), which the
relational, document and in-memory adapters use. -/
theorem neo4j_cassandra_reminders_raise_at_default (s : List Note) (now : Int)
    (nowHour : Nat) :
    neo4jGetUpcomingReminders s now nowHour 24 = none ∧
    cassandraGetUpcomingReminders s now nowHour 24 = none := by
  constructor
  · unfold neo4jGetUpcomingReminders
    rw [if_pos (by omega)]
  · unfold cassandraGetUpcomingReminders
    rw [if_pos (by omega)]

/-- C5 counterexample: the wide-column adapter's update with a supplied
title on an empty store — no record with the id exists — returns true,
where the claim requires false; the CQL upsert moreover creates the row,
with every unsupplied non-key column null. -/
theorem cassandra_update_absent_returns_true :
    cassandraUpdateNote [] uuidZero (some "T") none none =
      ([{ id := uuidZero, title := some "T", content := none, due_at := none,
          created_at := none }], true) := rfl

/-- C5 (amended): for the graph adapter, update returns false exactly when
no field was supplied or the id is absent; every note keeps its id and
created_at; and a field that was not supplied is left unchanged in every
note. -/
theorem neo4j_update_contract (s : List Note) (i : String) (t c : Option String)
    (d : Option Int) :
    ((neo4jUpdateNote s i t c d).2 = false ↔
      (t = none ∧ c = none ∧ d = none) ∨ hasId s i = false) ∧
    (neo4jUpdateNote s i t c d).1.map (fun n => (n.id, n.created_at)) =
      s.map (fun n => (n.id, n.created_at)) ∧
    (t = none →
      (neo4jUpdateNote s i t c d).1.map (fun n => n.title) =
        s.map (fun n => n.title)) ∧
    (c = none →
      (neo4jUpdateNote s i t c d).1.map (fun n => n.content) =
        s.map (fun n => n.content)) ∧
    (d = none →
      (neo4jUpdateNote s i t c d).1.map (fun n => n.due_at) =
        s.map (fun n => n.due_at)) := by
  unfold neo4jUpdateNote
  by_cases hall : (t.isNone && c.isNone && d.isNone) = true
  · have h3 : t = none ∧ c = none ∧ d = none := by
      simp only [Bool.and_eq_true, Option.isNone_iff_eq_none] at hall
      exact ⟨hall.1.1, hall.1.2, hall.2⟩
    simp [hall, h3]
  · have h4 : ¬ (t = none ∧ c = none ∧ d = none) := by
      intro ⟨e1, e2, e3⟩
      simp [e1, e2, e3] at hall
    by_cases hid : hasId s i = true
    · rw [Bool.not_eq_true] at hall
      simp only [hall, Bool.false_eq_true, if_false, hid, if_true]
      refine ⟨by simp [h4, hid], ?_, ?_, ?_, ?_⟩
      · rw [List.map_map]
        refine List.map_congr_left (fun n _ => ?_)
        by_cases hn : n.id = i <;> simp [hn]
      · intro ht
        rw [List.map_map]
        refine List.map_congr_left (fun n _ => ?_)
        by_cases hn : n.id = i <;> simp [hn, ht]
      · intro hc
        rw [List.map_map]
        refine List.map_congr_left (fun n _ => ?_)
        by_cases hn : n.id = i <;> simp [hn, hc]
      · intro hd
        rw [List.map_map]
        refine List.map_congr_left (fun n _ => ?_)
        by_cases hn : n.id = i <;> simp [hn, hd]
    · rw [Bool.not_eq_true] at hall
      have hid2 : hasId s i = false := by
        cases hh : hasId s i
        · rfl
        · exact absurd hh hid
      simp [hall, hid2]

/-- C5 witness: a due-at-only update on a present id leaves every title
unchanged. -/
theorem neo4j_update_contract_witness :
    (neo4jUpdateNote [noteA] "a1" none none (some 9)).1.map (fun n => n.title) =
      [noteA].map (fun n => n.title) :=
  (neo4j_update_contract [noteA] "a1" none none (some 9)).2.2.1 rfl

/-- C6 counterexample: the graph adapter's stats on a two-note store carries
no recent-7-days count at all — lookup of the key yields none — while the
in-memory adapter's stats on the same store reports it; the claim requires
every adapter to return all four counts. -/
theorem neo4j_stats_missing_recent_count :
    (neo4jGetStats [noteA, noteB]).lookup "recent_notes" = none ∧
    (progressGetStats [noteA, noteB] 2).lookup "recent_notes" =
      some (.num 2) := by decide

/-- C6 (amended): stats of the in-memory adapter returns all four counts and
reports total=2, withReminder=1, withoutReminder=1 (and recent=2) after one
note with a due time and one without; the graph adapter reports the same
three counts but omits the recent count for every store, returning a
database_type tag instead. -/
theorem stats_counts_contract (s : List Note) (now dueT : Int)
    (i1 i2 t1 c1 t2 c2 : String) :
    (neo4jGetStats s).lookup "recent_notes" = none ∧
    progressGetStats
        [{ id := i1, title := t1, content := c1, due_at := some dueT,
           created_at := now },
         { id := i2, title := t2, content := c2, due_at := none,
           created_at := now }] now =
      [("total_notes", .num 2), ("notes_with_reminders", .num 1),
       ("notes_without_reminders", .num 1), ("recent_notes", .num 2)] ∧
    neo4jGetStats
        [{ id := i1, title := t1, content := c1, due_at := some dueT,
           created_at := now },
         { id := i2, title := t2, content := c2, due_at := none,
           created_at := now }] =
      [("total_notes", .num 2), ("notes_with_reminders", .num 1),
       ("notes_without_reminders", .num 1), ("database_type", .str "neo4j")] := by
  have hrec : now - 604800 ≤ now := by omega
  refine ⟨rfl, ?_, ?_⟩
  · simp [progressGetStats, List.filter, hrec]
  · simp [neo4jGetStats, List.filter]

/-- C7 counterexample: an unrecognized backend name selects the default
SQLite adapter class instead of raising — the selector's else branch —
where the claim requires construction to fail. -/
theorem selector_unknown_name_selects_sqlite :
    selectBackendClass "bogus" = BackendClass.sqlite ∧
    ¬ "bogus" ∈ recognizedBackends := by decide

/-- C7 (amended): every backend name outside the four recognized ones
silently falls back to the SQLite adapter class; the process starts
normally (only an ImportError while loading the chosen module aborts). -/
theorem selector_fallback (name : String) (h : ¬ name ∈ recognizedBackends) :
    selectBackendClass name = BackendClass.sqlite := by
  simp only [recognizedBackends, List.mem_cons, List.not_mem_nil, or_false,
    not_or] at h
  obtain ⟨h1, h2, h3, h4⟩ := h
  simp [selectBackendClass, h1, h2, h3, h4]

/-- C7 witness: the spec's own name for the wide-column backend is not
recognized and falls back to SQLite. -/
theorem selector_fallback_witness :
    selectBackendClass "wide-column" = BackendClass.sqlite :=
  selector_fallback "wide-column" (by decide)

/-- C8 counterexample: the remote-proxy constructor completes when the
health check answers a non-success status (500): only a warning is logged,
where the claim requires the constructor to raise. -/
theorem progress_server_init_survives_bad_status :
    progressServerInitSucceeds (.response 500) = true ∧ ¬ (500 : Nat) = 200 := by
  decide

/-- C8 (amended): construction performs the health check, and it is fatal
exactly when the request itself fails at transport level
(RequestException); any status response, success or not, lets construction
complete. -/
theorem progress_server_init_fatal_iff_transport (h : HealthCheck) :
    progressServerInitSucceeds h = false ↔ h = .requestError := by
  cases h <;> simp [progressServerInitSucceeds]

/-- A map-update that only overwrites due_at with a supplied value keeps
due_at present on every note that had one; the matched-node branch of the
graph adapter's update. -/
theorem due_preserved_map (s : List Note) (i : String) (t c : Option String)
    (d : Option Int) (h : s.all (fun n => n.due_at.isSome) = true) :
    (s.map (fun n =>
        if n.id == i then
          { n with title := t.getD n.title, content := c.getD n.content,
                   due_at := match d with | some x => some x | none => n.due_at }
        else n)).all (fun n => n.due_at.isSome) = true := by
  rw [List.all_eq_true] at h ⊢
  intro x hx
  rw [List.mem_map] at hx
  obtain ⟨n, hn, rfl⟩ := hx
  by_cases hni : n.id = i
  · cases d with
    | none => simpa [hni] using h n hn
    | some x => simp [hni]
  · simpa [hni] using h n hn

/-- C10: in every adapter exposing update, passing due_at as None means
"not supplied": an update supplying no field returns false and leaves the
store unchanged across the graph, wide-column and remote-proxy adapters
(no query is even issued), if every note has a due time every note still
has one after any graph update, and a wide-column update never clears an
existing row's reminder — every reminder-less row of the result either
descends from a reminder-less row of the store, or is the row the CQL
upsert freshly created with no due_at supplied. -/
theorem update_due_none_is_unsupplied (s : List Note) (cs : List CassRow)
    (i : String) (remoteOk : Bool) (t c : Option String) (d : Option Int) :
    neo4jUpdateNote s i none none none = (s, false) ∧
    cassandraUpdateNote cs i none none none = (cs, false) ∧
    progressServerUpdateNote none none none remoteOk = false ∧
    (s.all (fun n => n.due_at.isSome) = true →
      (neo4jUpdateNote s i t c d).1.all (fun n => n.due_at.isSome) = true) ∧
    (∀ r ∈ (cassandraUpdateNote cs i t c d).1, r.due_at = none →
      (∃ p ∈ cs, p.id = r.id ∧ p.due_at = none) ∨
        (cassHasId cs i = false ∧ r.id = i ∧ d = none)) := by
  refine ⟨rfl, rfl, rfl, ?_, ?_⟩
  · intro h
    unfold neo4jUpdateNote
    by_cases hall : (t.isNone && c.isNone && d.isNone) = true
    · simpa [hall] using h
    · rw [Bool.not_eq_true] at hall
      by_cases hid : hasId s i = true
      · simp only [hall, Bool.false_eq_true, if_false, hid, if_true]
        exact due_preserved_map s i t c d h
      · have hid2 : hasId s i = false := by
          cases hh : hasId s i
          · rfl
          · exact absurd hh hid
        simpa [hall, hid2] using h
  · intro r hr hnone
    unfold cassandraUpdateNote at hr
    by_cases hall : (t.isNone && c.isNone && d.isNone) = true
    · rw [if_pos hall] at hr
      exact Or.inl ⟨r, hr, rfl, hnone⟩
    · rw [Bool.not_eq_true] at hall
      rw [if_neg (by simp [hall])] at hr
      by_cases hid : cassHasId cs i = true
      · rw [if_pos hid, List.mem_map] at hr
        obtain ⟨p, hp, rfl⟩ := hr
        by_cases hpi : p.id = i
        · cases hd : d with
          | some x => simp [hpi, hd] at hnone
          | none =>
            refine Or.inl ⟨p, hp, ?_, ?_⟩
            · simp [hpi]
            · simpa [hpi, hd] using hnone
        · exact Or.inl ⟨p, hp, by simp [hpi], by simpa [hpi] using hnone⟩
      · have hid2 : cassHasId cs i = false := by
          cases hh : cassHasId cs i
          · rfl
          · exact absurd hh hid
        simp only [hid2, Bool.false_eq_true, if_false] at hr
        rw [List.mem_append] at hr
        cases hr with
        | inl hmem => exact Or.inl ⟨r, hmem, rfl, hnone⟩
        | inr hnew =>
          rw [List.mem_singleton] at hnew
          subst hnew
          exact Or.inr ⟨hid2, rfl, hnone⟩

/-- C10 witness: a title-only update of a store whose single note has a
reminder keeps the reminder present. -/
theorem update_due_none_witness :
    [noteB].all (fun n => n.due_at.isSome) = true ∧
    (neo4jUpdateNote [noteB] "b2" (some "X") none none).1.all
      (fun n => n.due_at.isSome) = true :=
  ⟨by decide,
   (update_due_none_is_unsupplied [noteB] [] "b2" true (some "X") none none).2.2.2.1
     (by decide)⟩
